import Mathlib

/-!
Verification of the H265 format processor and RTMP connection logic of
rtsp-simple-server (files `internal/core/formatprocessor_h265.go` and the
RTMP `conn.go` slice).

Modelling conventions:
* Go byte slices are `List Nat` (each element intended `< 256`); a `nil`
  slice, where the code distinguishes it from an empty one, is `Option`.
* Go strings are `List Char` (`Str` below); Go `strings.Split` /
  `strings.Join` with separator "/" become `splitOnChar` / `joinWithChar`.
* Go `time.Duration` values are `Int` nanoseconds.
* External library calls whose internals the claims do not depend on
  (RTP decode/encode, H264/AAC decoder-config parsing, AVCC unmarshal)
  are passed in as explicit function parameters.
-/

/-- Go strings are modelled as lists of characters. -/
abbrev Str := List Char

/-- Model of Go `strings.Split` with a one-character separator:
splits around every occurrence of the separator; `[]` splits to `[[]]`. -/
def splitOnChar (sep : Char) : List Char → List (List Char)
  | [] => [[]]
  | c :: rest =>
    let r := splitOnChar sep rest
    if c = sep then
      [] :: r
    else
      match r with
      | [] => [[c]]
      | h :: t => (c :: h) :: t

/-- Model of Go `strings.Join` with a one-character separator. -/
def joinWithChar (sep : Char) : List (List Char) → List Char
  | [] => []
  | [p] => p
  | p :: rest => p ++ sep :: joinWithChar sep rest

theorem splitOnChar_ne_nil (sep : Char) (cs : List Char) :
    splitOnChar sep cs ≠ [] := by
  induction cs with
  | nil => simp [splitOnChar]
  | cons c rest ih =>
    simp only [splitOnChar]
    split
    · simp
    · cases h : splitOnChar sep rest with
      | nil => simp
      | cons a b => simp

/-- Joining undoes splitting. -/
theorem joinWithChar_splitOnChar (sep : Char) (cs : List Char) :
    joinWithChar sep (splitOnChar sep cs) = cs := by
  induction cs with
  | nil => rfl
  | cons c rest ih =>
    simp only [splitOnChar]
    split
    · rename_i hc
      subst hc
      cases h : splitOnChar c rest with
      | nil => exact absurd h (splitOnChar_ne_nil c rest)
      | cons a b =>
        rw [h] at ih
        simp [joinWithChar, ih]
    · cases h : splitOnChar sep rest with
      | nil => exact absurd h (splitOnChar_ne_nil sep rest)
      | cons a b =>
        rw [h] at ih
        cases b with
        | nil => simp_all [joinWithChar]
        | cons x y => simp_all [joinWithChar]

/-! ## RTP packet model

Model of `rtp.Packet` from pion/rtp, restricted to the header fields the
code under verification reads or writes (no extension header). -/

structure RTPPacket where
  payloadType : Nat
  sequenceNumber : Nat
  timestamp : Nat
  ssrc : Nat
  csrc : List Nat
  padding : Bool
  paddingSize : Nat
  payload : List Nat
  deriving Repr, DecidableEq

/-- Model of pion/rtp `Packet.MarshalSize`: fixed 12-byte header plus
4 bytes per CSRC plus the payload length (the version in use does not
count padding in the marshaled size). -/
def RTPPacket.marshalSize (p : RTPPacket) : Nat :=
  12 + 4 * p.csrc.length + p.payload.length

/-- Convenience constructor for packets whose header fields are irrelevant. -/
def mkPacket (payload : List Nat) : RTPPacket :=
  ⟨0, 0, 0, 0, [], false, 0, payload⟩

/-! ## H265 NALU constants (gortsplib `h265` package) -/

def NALUType_VPS_NUT : Nat := 32
def NALUType_SPS_NUT : Nat := 33
def NALUType_PPS_NUT : Nat := 34
def NALUType_AggregationUnit : Nat := 48

/-- The H265 NALU type discriminant of a byte: `(b >> 1) & 0b111111`. -/
def naluTypeOfByte (b : Nat) : Nat := (b >>> 1) &&& 63

/-! ## Parameter-set extraction (`rtpH265ExtractVPSSPSPPS`) -/

/-- The aggregation-unit loop of `rtpH265ExtractVPSSPSPPS`
(`formatprocessor_h265.go` lines 37-68).  `pktFirstByte` is
`pkt.Payload[0]`: the source recomputes the NALU type from that byte on
every iteration (line 56), not from the sub-unit's first byte. -/
def h265AggLoop (pktFirstByte : Nat) (payload : List Nat)
    (vps sps pps : Option (List Nat)) :
    Option (List Nat) × Option (List Nat) × Option (List Nat) :=
  match payload with
  | [] => (vps, sps, pps)
  | [_] => (vps, sps, pps)
  | b0 :: b1 :: rest =>
    let size := b0 * 256 + b1
    if size = 0 then
      (vps, sps, pps)
    else if rest.length < size then
      (none, none, none)
    else
      let nalu := rest.take size
      let typ := naluTypeOfByte pktFirstByte
      let vps' := if typ = NALUType_VPS_NUT then some nalu else vps
      let sps' := if typ = NALUType_SPS_NUT then some nalu else sps
      let pps' := if typ = NALUType_PPS_NUT then some nalu else pps
      h265AggLoop pktFirstByte (rest.drop size) vps' sps' pps'
termination_by payload.length
decreasing_by
  simp only [List.length_drop, List.length_cons]
  omega

/-- Model of `rtpH265ExtractVPSSPSPPS` (`formatprocessor_h265.go`
lines 14-75): extract VPS, SPS and PPS without decoding RTP packets. -/
def rtpH265ExtractVPSSPSPPS (pkt : RTPPacket) :
    Option (List Nat) × Option (List Nat) × Option (List Nat) :=
  match pkt.payload with
  | b0 :: _ :: _ =>
    let typ := naluTypeOfByte b0
    if typ = NALUType_VPS_NUT then
      (some pkt.payload, none, none)
    else if typ = NALUType_SPS_NUT then
      (none, some pkt.payload, none)
    else if typ = NALUType_PPS_NUT then
      (none, none, some pkt.payload)
    else if typ = NALUType_AggregationUnit then
      h265AggLoop b0 (pkt.payload.drop 2) none none none
    else
      (none, none, none)
  | _ => (none, none, none)

/-- Spec-side aggregation loop, following the spec's words (§4.2,
"classify each sub-unit by its own type discriminant"): identical to
`h265AggLoop` except that the type is taken from the sub-unit's first
byte. Used only to contrast with the source behaviour. -/
def specH265AggLoop (payload : List Nat)
    (vps sps pps : Option (List Nat)) :
    Option (List Nat) × Option (List Nat) × Option (List Nat) :=
  match payload with
  | [] => (vps, sps, pps)
  | [_] => (vps, sps, pps)
  | b0 :: b1 :: rest =>
    let size := b0 * 256 + b1
    if size = 0 then
      (vps, sps, pps)
    else if rest.length < size then
      (none, none, none)
    else
      let nalu := rest.take size
      let typ := naluTypeOfByte (nalu.headD 0)
      let vps' := if typ = NALUType_VPS_NUT then some nalu else vps
      let sps' := if typ = NALUType_SPS_NUT then some nalu else sps
      let pps' := if typ = NALUType_PPS_NUT then some nalu else pps
      specH265AggLoop (rest.drop size) vps' sps' pps'
termination_by payload.length
decreasing_by
  simp only [List.length_drop, List.length_cons]
  omega

/-- A concrete aggregation packet packing a VPS, an SPS and a PPS, each
within its declared 2-byte length and all within packet bounds:
first byte `0x60` has NALU type 48 (aggregation unit); the three
sub-units start with bytes `0x40`, `0x42`, `0x44` (types 32, 33, 34). -/
def aggPacketVpsSpsPps : RTPPacket :=
  mkPacket [0x60, 0x01, 0, 2, 0x40, 0x01, 0, 2, 0x42, 0x01, 0, 2, 0x44, 0x01]

/-- An aggregation packet whose first sub-unit declares length 5 while
only 2 bytes remain (truncated length prefix). -/
def aggPacketTruncated : RTPPacket :=
  mkPacket [0x60, 0x01, 0, 5, 0x40, 0x01]

/-- C1: parameter-set extraction from an aggregation packet. The claim
(and the spec) say each sub-unit is classified by its own type
discriminant, so the packet `aggPacketVpsSpsPps` should yield all three
parameter sets — as the spec-side loop does. The source instead
re-derives the type from the packet's first byte (always the
aggregation-unit type, 48) on every iteration, so extraction returns
nothing for every aggregation packet. The truncated-length behaviour
(return nothing, no error) does match. -/
theorem c1_aggregation_classification_bug :
    rtpH265ExtractVPSSPSPPS aggPacketVpsSpsPps = (none, none, none) ∧
    specH265AggLoop (aggPacketVpsSpsPps.payload.drop 2) none none none =
      (some [0x40, 0x01], some [0x42, 0x01], some [0x44, 0x01]) ∧
    rtpH265ExtractVPSSPSPPS aggPacketTruncated = (none, none, none) := by
  refine ⟨?_, ?_, ?_⟩ <;>
    simp +decide [rtpH265ExtractVPSSPSPPS, aggPacketVpsSpsPps, aggPacketTruncated,
      mkPacket, h265AggLoop, specH265AggLoop]

/-! ## Track format state and parameter update (`updateTrackParametersFromRTPPacket`) -/

/-- The H265 track descriptor fields the processor reads/writes
(`format.H265`): stored parameter sets, accessed through the
`SafeVPS`/`SafeSetVPS` (etc.) accessors, and the decoder-order-number
tolerance `MaxDONDiff`. -/
structure TrackFormat where
  vps : List Nat
  sps : List Nat
  pps : List Nat
  maxDONDiff : Nat
  deriving Repr, DecidableEq

/-- One guarded store of `updateTrackParametersFromRTPPacket`
(`if x != nil && !bytes.Equal(x, stored) { SafeSetX(x) }`): returns the
resulting stored value and how many store mutations were performed. -/
def updateParam (stored : List Nat) (extracted : Option (List Nat)) :
    List Nat × Nat :=
  match extracted with
  | some v => if v = stored then (stored, 0) else (v, 1)
  | none => (stored, 0)

/-- Model of `formatProcessorH265.updateTrackParametersFromRTPPacket`
(`formatprocessor_h265.go` lines 114-128); the second component counts
the `SafeSet` store mutations performed. -/
def updateTrackParametersFromRTPPacket (f : TrackFormat) (pkt : RTPPacket) :
    TrackFormat × Nat :=
  let e := rtpH265ExtractVPSSPSPPS pkt
  let uv := updateParam f.vps e.1
  let us := updateParam f.sps e.2.1
  let up := updateParam f.pps e.2.2
  ({ f with vps := uv.1, sps := us.1, pps := up.1 }, uv.2 + us.2 + up.2)

theorem updateParam_changed (stored : List Nat) (e : Option (List Nat))
    (h : (updateParam stored e).1 ≠ stored) :
    e = some (updateParam stored e).1 ∧ (updateParam stored e).1 ≠ stored := by
  cases e with
  | none => simp [updateParam] at h
  | some v =>
    by_cases hv : v = stored
    · simp [updateParam, hv] at h
    · simp [updateParam, hv]

theorem updateParam_self (stored : List Nat) (e : Option (List Nat)) :
    updateParam (updateParam stored e).1 e = ((updateParam stored e).1, 0) := by
  cases e with
  | none => rfl
  | some v =>
    simp only [updateParam]
    split <;> simp

theorem updateTrackParameters_maxDONDiff (f : TrackFormat) (pkt : RTPPacket) :
    (updateTrackParametersFromRTPPacket f pkt).1.maxDONDiff = f.maxDONDiff := rfl

/-- C7: parameter-set update policy. For each of VPS/SPS/PPS
independently, the stored value changes only when the freshly extracted
bytes are present and differ from what was stored (and then the stored
value becomes exactly the extracted bytes); a packet whose extraction
yields a single fresh VPS performs exactly one store mutation; and
feeding the same packet a second time performs zero store mutations and
leaves the state untouched. -/
theorem c7_update_policy (f : TrackFormat) (pkt : RTPPacket) :
    (((updateTrackParametersFromRTPPacket f pkt).1.vps ≠ f.vps →
        (rtpH265ExtractVPSSPSPPS pkt).1 =
          some (updateTrackParametersFromRTPPacket f pkt).1.vps) ∧
      ((updateTrackParametersFromRTPPacket f pkt).1.sps ≠ f.sps →
        (rtpH265ExtractVPSSPSPPS pkt).2.1 =
          some (updateTrackParametersFromRTPPacket f pkt).1.sps) ∧
      ((updateTrackParametersFromRTPPacket f pkt).1.pps ≠ f.pps →
        (rtpH265ExtractVPSSPSPPS pkt).2.2 =
          some (updateTrackParametersFromRTPPacket f pkt).1.pps)) ∧
    (∀ v, rtpH265ExtractVPSSPSPPS pkt = (some v, none, none) → v ≠ f.vps →
      (updateTrackParametersFromRTPPacket f pkt).2 = 1) ∧
    updateTrackParametersFromRTPPacket
        (updateTrackParametersFromRTPPacket f pkt).1 pkt =
      ((updateTrackParametersFromRTPPacket f pkt).1, 0) := by
  refine ⟨⟨?_, ?_, ?_⟩, ?_, ?_⟩
  · intro h
    exact (updateParam_changed f.vps (rtpH265ExtractVPSSPSPPS pkt).1 h).1
  · intro h
    exact (updateParam_changed f.sps (rtpH265ExtractVPSSPSPPS pkt).2.1 h).1
  · intro h
    exact (updateParam_changed f.pps (rtpH265ExtractVPSSPSPPS pkt).2.2 h).1
  · intro v hv hne
    simp [updateTrackParametersFromRTPPacket, hv, updateParam, hne]
  · simp only [updateTrackParametersFromRTPPacket]
    rw [updateParam_self, updateParam_self, updateParam_self]
    rfl

/-- C7 witness: a direct VPS packet `[0x40, 0x05]` against an empty
track: the first update stores once, the second is a no-op. -/
theorem c7_update_policy_witness :
    (updateTrackParametersFromRTPPacket ⟨[], [], [], 0⟩
        (mkPacket [0x40, 0x05])).2 = 1 ∧
    updateTrackParametersFromRTPPacket
        (updateTrackParametersFromRTPPacket ⟨[], [], [], 0⟩
          (mkPacket [0x40, 0x05])).1 (mkPacket [0x40, 0x05]) =
      ((updateTrackParametersFromRTPPacket ⟨[], [], [], 0⟩
          (mkPacket [0x40, 0x05])).1, 0) := by
  have h := c7_update_policy ⟨[], [], [], 0⟩ (mkPacket [0x40, 0x05])
  exact ⟨h.2.1 [0x40, 0x05] rfl (by decide), h.2.2⟩

/-! ## The format processor (`formatProcessorH265.process`) -/

/-- Seed parameters of a lazily instantiated `rtph265.Encoder`. -/
structure EncoderParams where
  payloadType : Nat
  ssrc : Nat
  initialSequenceNumber : Nat
  initialTimestamp : Nat
  maxDONDiff : Nat
  deriving Repr, DecidableEq

/-- Mutable state of a `formatProcessorH265`: the track format, an
optional encoder and an optional (lazily created) decoder. -/
structure ProcState where
  format : TrackFormat
  encoder : Option EncoderParams
  decoderAllocated : Bool
  deriving Repr, DecidableEq

/-- Model of `dataH265`: either raw RTP packets (`some`, Go non-nil
slice) or none, plus the decoded access units and their pts. -/
structure DataH265 where
  rtpPackets : Option (List RTPPacket)
  pts : Int
  nalus : List (List Nat)
  deriving Repr, DecidableEq

/-- Errors of `rtph265.Decoder.DecodeUntilMarker`: the two sentinel
errors the processor tolerates, and everything else. -/
inductive DecodeError where
  | morePacketsNeeded
  | nonStartingPacketAndNoPrevious
  | other (msg : Str)
  deriving Repr, DecidableEq

inductive ProcError where
  | decodeError (e : DecodeError)
  | encodeError (msg : Str)
  deriving Repr, DecidableEq

/-- Outcome of one `process` call: normal return `nil`, an error return,
or a Go runtime panic (nil-encoder dereference / empty-slice index). -/
inductive ProcOutcome where
  | ok
  | fail (e : ProcError)
  | crash
  deriving Repr, DecidableEq

/-- The external decoder call (`decoder.DecodeUntilMarker`), passed in
as a function of the packet it is handed. -/
abbrev DecoderFn := RTPPacket → Except DecodeError (List (List Nat) × Int)

/-- The external encoder call (`encoder.Encode`). -/
abbrev EncoderFn := EncoderParams → List (List Nat) → Int → Except Str (List RTPPacket)

/-- Model of `formatProcessorH265.updateTrackParametersFromNALUs`
(lines 130-132): body is a `TODO`, a no-op. -/
def updateTrackParametersFromNALUs (f : TrackFormat)
    (_nalus : List (List Nat)) : TrackFormat := f

/-- Model of `formatProcessorH265.remuxNALUs` (lines 134-137): the
parameter-set injection is a `TODO`; returns its input unchanged. -/
def remuxNALUs (nalus : List (List Nat)) : List (List Nat) := nalus

/-- Model of `formatProcessorH265.process` (`formatprocessor_h265.go`
lines 139-208). `maxPacketSize` is the package-level transport size
ceiling (defined outside this slice; the spec treats it as a
configurable value, §6). Returns the processor state, the batch, and
the call outcome. -/
def process (maxPacketSize : Nat) (decode : DecoderFn) (encode : EncoderFn)
    (st : ProcState) (d : DataH265) (hasNonRTSPReaders : Bool) :
    ProcState × DataH265 × ProcOutcome :=
  match d.rtpPackets with
  | some pkts =>
    match pkts with
    | [] => (st, d, .crash)
    | pkt :: restPkts =>
      let fmt1 := (updateTrackParametersFromRTPPacket st.format pkt).1
      let stripped : RTPPacket := { pkt with padding := false, paddingSize := 0 }
      let step : RTPPacket × Option EncoderParams :=
        match st.encoder with
        | none =>
          if maxPacketSize < stripped.marshalSize then
            (stripped, some ⟨pkt.payloadType, pkt.ssrc, pkt.sequenceNumber,
              pkt.timestamp, fmt1.maxDONDiff⟩)
          else
            (stripped, none)
        | some e => (pkt, some e)
      let pkt1 := step.1
      let enc1 := step.2
      let st1 : ProcState := ⟨fmt1, enc1, st.decoderAllocated⟩
      let d1 : DataH265 := { d with rtpPackets := some (pkt1 :: restPkts) }
      if hasNonRTSPReaders || enc1.isSome then
        let st2 : ProcState := { st1 with decoderAllocated := true }
        let d2 := if enc1.isSome then { d1 with rtpPackets := none } else d1
        match decode pkt1 with
        | .error .morePacketsNeeded => (st2, d2, .ok)
        | .error .nonStartingPacketAndNoPrevious => (st2, d2, .ok)
        | .error (.other m) => (st2, d2, .fail (.decodeError (.other m)))
        | .ok (nalus, pts) =>
          let d3 : DataH265 := { d2 with nalus := remuxNALUs nalus, pts := pts }
          match enc1 with
          | none => (st2, d3, .ok)
          | some e =>
            match encode e d3.nalus d3.pts with
            | .error m => (st2, d3, .fail (.encodeError m))
            | .ok outPkts => (st2, { d3 with rtpPackets := some outPkts }, .ok)
      else
        (st1, d1, .ok)
  | none =>
    let st1 : ProcState := { st with format := updateTrackParametersFromNALUs st.format d.nalus }
    let d1 : DataH265 := { d with nalus := remuxNALUs d.nalus }
    match st1.encoder with
    | none => (st1, d1, .crash)
    | some e =>
      match encode e d1.nalus d1.pts with
      | .error m => (st1, d1, .fail (.encodeError m))
      | .ok outPkts => (st1, { d1 with rtpPackets := some outPkts }, .ok)

theorem process_rtp_encoder (maxPS : Nat) (decode : DecoderFn)
    (encode : EncoderFn) (st : ProcState) (d : DataH265) (hasR : Bool)
    (pkt : RTPPacket) (rest : List RTPPacket)
    (henc : st.encoder = none) (hpkts : d.rtpPackets = some (pkt :: rest)) :
    (process maxPS decode encode st d hasR).1.encoder =
      if maxPS < pkt.marshalSize then
        some ⟨pkt.payloadType, pkt.ssrc, pkt.sequenceNumber, pkt.timestamp,
          st.format.maxDONDiff⟩
      else none := by
  have hdon : (updateTrackParametersFromRTPPacket st.format pkt).1.maxDONDiff =
      st.format.maxDONDiff := rfl
  simp only [process, hpkts, henc, RTPPacket.marshalSize, hdon]
  by_cases hsz : maxPS < 12 + 4 * pkt.csrc.length + pkt.payload.length
  · simp only [if_pos hsz, Option.isSome_some, Bool.or_true, if_true]
    split <;> try rfl
    split <;> rfl
  · simp only [if_neg hsz, Option.isSome_none, Bool.or_false]
    cases hasR with
    | false => rfl
    | true =>
      simp only [if_true]
      split <;> rfl

/-- C2: size-triggered mode switch. On a processor with no encoder,
given a batch whose first raw packet's marshaled size exceeds the
transport size ceiling, `process` instantiates an encoder seeded with
the triggering packet's SSRC, sequence number, timestamp and payload
type and the format's `MaxDONDiff`; if the size does not exceed the
ceiling, no encoder is instantiated by that call. -/
theorem c2_size_triggered_mode_switch (maxPS : Nat) (decode : DecoderFn)
    (encode : EncoderFn) (st : ProcState) (d : DataH265) (hasR : Bool)
    (pkt : RTPPacket) (rest : List RTPPacket)
    (henc : st.encoder = none) (hpkts : d.rtpPackets = some (pkt :: rest)) :
    (pkt.marshalSize > maxPS →
      (process maxPS decode encode st d hasR).1.encoder =
        some ⟨pkt.payloadType, pkt.ssrc, pkt.sequenceNumber, pkt.timestamp,
          st.format.maxDONDiff⟩) ∧
    (¬ pkt.marshalSize > maxPS →
      (process maxPS decode encode st d hasR).1.encoder = none) := by
  rw [process_rtp_encoder maxPS decode encode st d hasR pkt rest henc hpkts]
  constructor <;> intro hsz
  · rw [if_pos hsz]
  · rw [if_neg hsz]

/-- A decoder stub that always reports "more packets needed". -/
def decodeMorePackets : DecoderFn := fun _ => .error .morePacketsNeeded

/-- An encoder stub that always succeeds with an empty packet list. -/
def encodeOk : EncoderFn := fun _ _ _ => .ok []

/-- A processor state with no encoder allocated. -/
def stNoEnc : ProcState := ⟨⟨[], [], [], 7⟩, none, false⟩

/-- C2 witness: ceiling 3, first packet of marshaled size 15. -/
theorem c2_size_triggered_mode_switch_witness :
    (mkPacket [0, 0, 0]).marshalSize > 3 ∧
    (process 3 decodeMorePackets encodeOk stNoEnc
        ⟨some [mkPacket [0, 0, 0]], 0, []⟩ false).1.encoder =
      some ⟨0, 0, 0, 0, 7⟩ :=
  ⟨by decide,
    (c2_size_triggered_mode_switch 3 decodeMorePackets encodeOk stNoEnc
        ⟨some [mkPacket [0, 0, 0]], 0, []⟩ false (mkPacket [0, 0, 0]) []
        rfl rfl).1 (by decide)⟩

/-- C6: decode-error tolerance while decoding is active (a non-RTSP
reader exists, an encoder is already active, or the size check is about
to activate one). The two sentinel errors of `DecodeUntilMarker` make
`process` return success with the batch's unit list untouched; any
other decode error is returned as fatal for the batch. -/
theorem c6_decode_error_tolerance (maxPS : Nat) (decode : DecoderFn)
    (encode : EncoderFn) (st : ProcState) (d : DataH265) (hasR : Bool)
    (pkt : RTPPacket) (rest : List RTPPacket)
    (hpkts : d.rtpPackets = some (pkt :: rest))
    (hactive : hasR = true ∨ st.encoder.isSome = true ∨
      (st.encoder = none ∧ maxPS < pkt.marshalSize)) :
    (decode (if st.encoder.isSome then pkt
        else { pkt with padding := false, paddingSize := 0 }) =
          .error .morePacketsNeeded →
      (process maxPS decode encode st d hasR).2.2 = .ok ∧
      (process maxPS decode encode st d hasR).2.1.nalus = d.nalus) ∧
    (decode (if st.encoder.isSome then pkt
        else { pkt with padding := false, paddingSize := 0 }) =
          .error .nonStartingPacketAndNoPrevious →
      (process maxPS decode encode st d hasR).2.2 = .ok ∧
      (process maxPS decode encode st d hasR).2.1.nalus = d.nalus) ∧
    (∀ m, decode (if st.encoder.isSome then pkt
        else { pkt with padding := false, paddingSize := 0 }) =
          .error (.other m) →
      (process maxPS decode encode st d hasR).2.2 =
        .fail (.decodeError (.other m))) := by
  cases henc : st.encoder with
  | some e =>
    simp only [process, hpkts, henc, Option.isSome_some, Bool.or_true,
      if_true]
    refine ⟨?_, ?_, ?_⟩
    · intro hdec
      rw [hdec]
      exact ⟨rfl, rfl⟩
    · intro hdec
      rw [hdec]
      exact ⟨rfl, rfl⟩
    · intro m hdec
      rw [hdec]
  | none =>
    simp only [henc, Option.isSome_none] at hactive ⊢
    simp only [process, hpkts, henc]
    by_cases hsz : maxPS <
        ({ pkt with padding := false, paddingSize := 0 } : RTPPacket).marshalSize
    · simp only [if_pos hsz, Option.isSome_some, Bool.or_true, if_true,
        Bool.false_eq_true, if_false]
      refine ⟨?_, ?_, ?_⟩
      · intro hdec
        rw [hdec]
        exact ⟨rfl, rfl⟩
      · intro hdec
        rw [hdec]
        exact ⟨rfl, rfl⟩
      · intro m hdec
        rw [hdec]
    · have hR : hasR = true := by
        rcases hactive with h | h | h
        · exact h
        · exact absurd h (by simp)
        · exact absurd h.2 (by
            simpa [RTPPacket.marshalSize] using
              (by simpa [RTPPacket.marshalSize] using hsz : _))
      simp only [if_neg hsz, Option.isSome_none, Bool.or_false, hR, if_true,
        Bool.false_eq_true, if_false]
      refine ⟨?_, ?_, ?_⟩
      · intro hdec
        rw [hdec]
        exact ⟨rfl, rfl⟩
      · intro hdec
        rw [hdec]
        exact ⟨rfl, rfl⟩
      · intro m hdec
        rw [hdec]

/-- C6 witness: active decoding via a non-RTSP reader; the decoder
reports "more packets needed"; the call succeeds with no units. -/
theorem c6_decode_error_tolerance_witness :
    (process 1472 decodeMorePackets encodeOk stNoEnc
        ⟨some [mkPacket [0, 0, 0]], 0, [[9]]⟩ true).2.2 = .ok ∧
    (process 1472 decodeMorePackets encodeOk stNoEnc
        ⟨some [mkPacket [0, 0, 0]], 0, [[9]]⟩ true).2.1.nalus = [[9]] :=
  (c6_decode_error_tolerance 1472 decodeMorePackets encodeOk stNoEnc
      ⟨some [mkPacket [0, 0, 0]], 0, [[9]]⟩ true (mkPacket [0, 0, 0]) []
      rfl (Or.inl rfl)).1 rfl

/-- A units-only batch (no raw packets). -/
def unitsBatch : DataH265 := ⟨none, 0, [[1, 2]]⟩

/-- C9 counterexample: processing a units-only batch on a processor
with no encoder does NOT complete without failure — `process` reaches
`t.encoder.Encode` unconditionally (line 201) and dereferences the
unallocated encoder (modelled as `.crash`), contradicting the claim
that encoding is performed only if a re-encoder is active. -/
theorem c9_counterexample :
    (process 1472 decodeMorePackets encodeOk stNoEnc unitsBatch false).2.2 =
      .crash ∧ ProcOutcome.crash ≠ ProcOutcome.ok := ⟨rfl, by decide⟩

/-- C9 (amended): on a units-only batch, `process` updates parameter
sets from the units (a no-op in this slice) and remuxes, then
unconditionally attempts encoding: with no encoder it dereferences the
unallocated encoder (crash); with an active encoder, success stores the
resulting packets on the batch and an encode error is fatal. -/
theorem c9_units_path_encoding (maxPS : Nat) (decode : DecoderFn)
    (encode : EncoderFn) (st : ProcState) (d : DataH265) (hasR : Bool)
    (hunits : d.rtpPackets = none) :
    (st.encoder = none →
      process maxPS decode encode st d hasR =
        ({ st with format := updateTrackParametersFromNALUs st.format d.nalus },
         { d with nalus := remuxNALUs d.nalus }, .crash)) ∧
    (∀ e pkts, st.encoder = some e →
      encode e (remuxNALUs d.nalus) d.pts = .ok pkts →
      process maxPS decode encode st d hasR =
        ({ st with format := updateTrackParametersFromNALUs st.format d.nalus },
         { d with nalus := remuxNALUs d.nalus, rtpPackets := some pkts }, .ok)) ∧
    (∀ e m, st.encoder = some e →
      encode e (remuxNALUs d.nalus) d.pts = .error m →
      process maxPS decode encode st d hasR =
        ({ st with format := updateTrackParametersFromNALUs st.format d.nalus },
         { d with nalus := remuxNALUs d.nalus }, .fail (.encodeError m))) := by
  refine ⟨?_, ?_, ?_⟩
  · intro henc
    simp only [process, hunits, henc]
  · intro e pkts henc hencres
    simp only [process, hunits, henc, hencres]
  · intro e m henc hencres
    simp only [process, hunits, henc, hencres]

/-- C9 witness: the no-encoder branch at a concrete units batch. -/
theorem c9_units_path_encoding_witness :
    process 1472 decodeMorePackets encodeOk stNoEnc unitsBatch false =
      ({ stNoEnc with
          format := updateTrackParametersFromNALUs stNoEnc.format unitsBatch.nalus },
       { unitsBatch with nalus := remuxNALUs unitsBatch.nalus }, .crash) :=
  (c9_units_path_encoding 1472 decodeMorePackets encodeOk stNoEnc unitsBatch
      false rfl).1 rfl

/-! ## URL model (net/url fragment used by the RTMP code)

`GoURL` models Go's `url.URL` restricted to the fields this code reads
or writes (no `Opaque`, no `User`); `path` and `fragment` hold the
escaped forms (Go additionally stores decoded copies), which coincide
with the decoded ones on the escape-free inputs our theorems use. The
two parsers below model `url.ParseRequestURI` and `url.Parse`. Two
documented deviations remain: absolute-URI request URIs (a scheme
before the first `/`) are unreachable from `createURL`, whose argument
always starts with `/`, and are not modelled; and opaque URIs
(`scheme:non-slash-rest`), which Go parses with an empty `Host` that
`createURL` then rejects as "invalid host", are mapped to `none` here —
`createURL` fails on them either way. -/

structure GoURL where
  scheme : Str
  host : Str
  path : Str
  rawQuery : Str
  fragment : Str
  forceQuery : Bool
  deriving Repr, DecidableEq

/-- Go `URL.RequestURI` (without the unmodelled `Opaque` case): the
escaped path, `/` when empty, plus `?query` when forced or present. -/
def requestURI (u : GoURL) : Str :=
  let r := if u.path = [] then ['/'] else u.path
  if u.forceQuery || u.rawQuery ≠ [] then r ++ '?' :: u.rawQuery else r

/-- The segment casework shared by the code and the spec: Go
`splitPath` after the request URI has been computed
(`conn.go`: `pathsegs := strings.Split(...); if len(pathsegs) == 2 ...`). -/
def splitPathSegs (s : Str) : Str × Str :=
  let pathsegs := splitOnChar '/' s
  if pathsegs.length = 2 then
    (pathsegs.getD 1 [], [])
  else if pathsegs.length = 3 then
    (pathsegs.getD 1 [], pathsegs.getD 2 [])
  else if 3 < pathsegs.length then
    (joinWithChar '/' ((pathsegs.drop 1).take 2),
     joinWithChar '/' (pathsegs.drop 3))
  else ([], [])

/-- Model of `splitPath` (RTMP `conn.go`): clears `ForceQuery`, then
splits the *request URI* (not the bare path) on `/`. -/
def splitPath (u : GoURL) : Str × Str :=
  splitPathSegs (requestURI { u with forceQuery := false })

/-- Spec-side variant, following the claim's words: split the URL's
*path* into `/`-delimited segments. Used only for contrast. -/
def specSplitPath (u : GoURL) : Str × Str :=
  splitPathSegs u.path

/-- Recombination of an application path and a stream path with `/`. -/
def recombinePath (app stream : Str) : Str :=
  '/' :: app ++ '/' :: stream

/-- C4 counterexample: on a URL with path `/a/b` and a non-empty query
`x=1`, `splitPath` operates on the request URI `/a/b?x=1`, so the
stream component comes back as `b?x=1`, not the path segment `b`
predicted by the claim's "splits the URL's path". -/
theorem c4_counterexample :
    splitPath ⟨"rtmp".toList, "h".toList, "/a/b".toList, "x=1".toList, [], false⟩ =
      ("a".toList, "b?x=1".toList) ∧
    specSplitPath ⟨"rtmp".toList, "h".toList, "/a/b".toList, "x=1".toList, [], false⟩ =
      ("a".toList, "b".toList) ∧
    ("b?x=1".toList : Str) ≠ "b".toList := by
  refine ⟨by decide, by decide, by decide⟩

theorem splitOnChar_cons_sep (sep : Char) (t : List Char) :
    splitOnChar sep (sep :: t) = [] :: splitOnChar sep t := by
  simp [splitOnChar]

/-- C4 (amended): for every URL whose (escaped) path is empty or
absolute, `splitPath` splits the request URI (path plus `?query` when a
query is present) into `/`-delimited segments — there are always at
least two — and recombining application and stream with `/` yields the
request URI itself when it has three or more segments, and the request
URI plus a trailing `/` when it has exactly two. -/
theorem c4_splitPath_roundtrip (u : GoURL)
    (hslash : u.path = [] ∨ u.path.head? = some '/') :
    2 ≤ (splitOnChar '/' (requestURI { u with forceQuery := false })).length ∧
    recombinePath (splitPath u).1 (splitPath u).2 =
      (if (splitOnChar '/' (requestURI { u with forceQuery := false })).length = 2
       then requestURI { u with forceQuery := false } ++ ['/']
       else requestURI { u with forceQuery := false }) := by
  obtain ⟨t, hru⟩ : ∃ t, requestURI { u with forceQuery := false } = '/' :: t := by
    rcases hslash with h | h
    · simp only [requestURI, h]
      split
      · exact ⟨_, rfl⟩
      · exact ⟨_, rfl⟩
    · rcases hp : u.path with _ | ⟨c, p'⟩
      · rw [hp] at h; simp at h
      · rw [hp] at h
        simp only [List.head?_cons, Option.some.injEq] at h
        subst h
        simp only [requestURI, hp]
        split
        · exact ⟨p' ++ '?' :: u.rawQuery, rfl⟩
        · exact ⟨_, rfl⟩
  rw [hru, splitOnChar_cons_sep]
  have hjoin := joinWithChar_splitOnChar '/' t
  rcases hs : splitOnChar '/' t with _ | ⟨s1, tail⟩
  · exact absurd hs (splitOnChar_ne_nil '/' t)
  · rw [hs] at hjoin
    rcases tail with _ | ⟨s2, tail2⟩
    · -- two segments: [[], s1]
      refine ⟨by simp, ?_⟩
      simp only [List.length_cons, List.length_singleton, if_pos rfl]
      simp only [splitPath, hru, splitPathSegs, splitOnChar_cons_sep, hs]
      simp only [List.length_cons, List.length_singleton, if_pos rfl]
      simp only [recombinePath, List.getD]
      simp only [joinWithChar] at hjoin
      simp [← hjoin]
    · rcases tail2 with _ | ⟨s3, tail3⟩
      · -- three segments: [[], s1, s2]
        refine ⟨by simp, ?_⟩
        have hlen : ([[], s1, s2] : List Str).length = 3 := by simp
        simp only [List.length_cons, List.length_nil]
        norm_num
        simp only [splitPath, hru, splitPathSegs, splitOnChar_cons_sep, hs]
        norm_num
        simp only [recombinePath, List.getD]
        simp only [joinWithChar] at hjoin
        simp [← hjoin]
      · -- more than three segments: [[], s1, s2, s3, ...]
        refine ⟨by simp, ?_⟩
        simp only [List.length_cons]
        have h4 : ¬ (tail3.length + 1 + 1 + 1 + 1 = 2) := by omega
        rw [if_neg h4]
        simp only [splitPath, hru, splitPathSegs, splitOnChar_cons_sep, hs]
        simp only [List.length_cons]
        rw [if_neg h4, if_neg (by omega : ¬ (tail3.length + 1 + 1 + 1 + 1 = 3)),
          if_pos (by omega : 3 < tail3.length + 1 + 1 + 1 + 1)]
        simp only [List.drop, List.take, recombinePath]
        simp only [joinWithChar] at hjoin ⊢
        rcases tail3 with _ | ⟨s4, tail4⟩ <;>
          simp_all [joinWithChar, List.append_assoc]

/-- C4 witness: a query-free URL with five path segments. -/
theorem c4_splitPath_roundtrip_witness :
    recombinePath
        (splitPath ⟨"rtmp".toList, "h".toList, "/a/b/c/d".toList, [], [], false⟩).1
        (splitPath ⟨"rtmp".toList, "h".toList, "/a/b/c/d".toList, [], [], false⟩).2 =
      "/a/b/c/d".toList := by
  have h := c4_splitPath_roundtrip
    ⟨"rtmp".toList, "h".toList, "/a/b/c/d".toList, [], [], false⟩
    (Or.inr rfl)
  rw [h.2]
  decide

/-! ## URL parsing model (`url.ParseRequestURI`, `url.Parse`) -/

/-- Go `ishex`: hexadecimal digit. -/
def isHexChar (c : Char) : Bool :=
  c.isDigit || ('a' ≤ c && c ≤ 'f') || ('A' ≤ c && c ≤ 'F')

/-- Go percent-escape validation (`unescape`): every `%` must be
followed by two hex digits. -/
def validEscapes : Str → Bool
  | [] => true
  | c :: rest =>
    if c = '%' then
      match rest with
      | a :: b :: rest2 => isHexChar a && isHexChar b && validEscapes rest2
      | _ => false
    else validEscapes rest

/-- Go `stringContainsCTLByte`: a byte below space or DEL. -/
def containsCTL (s : Str) : Bool :=
  s.any fun c => c.toNat < 0x20 || c.toNat = 0x7f

/-- Go `strings.Cut` at the first occurrence of a character: the part
before it and the part after it (empty when absent). -/
def goCut (sep : Char) (s : Str) : Str × Str :=
  (s.takeWhile (fun c => c ≠ sep), (s.dropWhile (fun c => c ≠ sep)).drop 1)

/-- Query extraction of Go `url.parse`: a single trailing `?` sets
`ForceQuery`; otherwise cut at the first `?`. Returns
(rest, rawQuery, forceQuery). -/
def cutQuery (s : Str) : Str × Str × Bool :=
  if s.getLast? = some '?' ∧ s.count '?' = 1 then
    (s.dropLast, [], true)
  else
    let c := goCut '?' s
    (c.1, c.2, false)

/-- Model of `url.ParseRequestURI` on the inputs `createURL` produces:
strings starting with `/`. With `viaRequest` set and no scheme, Go's
parse never takes the authority branch (its guard is
`url.Scheme != "" || !viaRequest && ...`), so even a `//`-prefixed
request URI is parsed as a plain path; the fragment is not split off.
Strings that do not start with `/` are "invalid URI for request" when
scheme-less; the absolute-URI form cannot arise from `createURL` and is
not modelled. -/
def parseRequestURI (s : Str) : Option GoURL :=
  if containsCTL s then none
  else
    match s with
    | '/' :: _ =>
      let q := cutQuery s
      if validEscapes q.1 then some ⟨[], [], q.1, q.2.1, [], q.2.2⟩ else none
    | _ => none

/-- Go `getScheme`: letters then letters/digits/`+`/`-`/`.` up to a
`:` give a scheme; a leading digit/`+`/`-`/`.` or any other byte means
no scheme; a `:` with no scheme accumulated is an error. Returns the
scheme (empty if none) and the remainder. -/
def getSchemeAux (orig : Str) (acc : Str) : Str → Option (Str × Str)
  | [] => some ([], orig)
  | c :: rest =>
    if c.isAlpha then getSchemeAux orig (acc ++ [c]) rest
    else if c.isDigit || c = '+' || c = '-' || c = '.' then
      if acc = [] then some ([], orig) else getSchemeAux orig (acc ++ [c]) rest
    else if c = ':' then
      if acc = [] then none else some (acc, rest)
    else some ([], orig)

def getScheme (s : Str) : Option (Str × Str) := getSchemeAux s [] s

/-- The value of a hexadecimal digit (0 for non-hex input). -/
def hexDigitVal (c : Char) : Nat :=
  if c.isDigit then c.toNat - '0'.toNat
  else if 'a' ≤ c ∧ c ≤ 'f' then c.toNat - 'a'.toNat + 10
  else if 'A' ≤ c ∧ c ≤ 'F' then c.toNat - 'A'.toNat + 10
  else 0

/-- The ASCII characters Go's `shouldEscape` leaves unescaped in host
(and zone) subcomponents: alphanumerics, the sub-delims plus
`: [ ] < > "`, and the unreserved marks. -/
def isHostChar (c : Char) : Bool :=
  c.isAlpha || c.isDigit ||
    ['!', '$', '&', Char.ofNat 39, '(', ')', '*', '+', ',', ';', '=',
      ':', '[', ']', '<', '>', Char.ofNat 34, '-', '_', '.', '~'].contains c

/-- Go `validOptionalPort`: empty, or `:` followed by digits only. -/
def validOptionalPort (p : Str) : Bool :=
  match p with
  | [] => true
  | ':' :: digits => digits.all Char.isDigit
  | _ => false

/-- Go `unescape(host, encodeHost)`: percent-escapes must be two hex
digits and, in host mode, must encode a byte ≥ 0x80 unless they are
literally `%25`; unescaped ASCII bytes must be host characters; the
result is the decoded string. -/
def hostUnescape : Str → Option Str
  | [] => some []
  | '%' :: a :: b :: rest =>
    if isHexChar a && isHexChar b then
      if hexDigitVal a < 8 && !(a = '2' && b = '5') then none
      else (hostUnescape rest).map
        fun t => Char.ofNat (hexDigitVal a * 16 + hexDigitVal b) :: t
    else none
  | '%' :: _ => none
  | c :: rest =>
    if c.toNat < 0x80 && !isHostChar c then none
    else (hostUnescape rest).map fun t => c :: t

/-- Go `unescape(zone, encodeZone)`: like host mode but any valid
percent-escape is accepted. -/
def zoneUnescape : Str → Option Str
  | [] => some []
  | '%' :: a :: b :: rest =>
    if isHexChar a && isHexChar b then
      (zoneUnescape rest).map
        fun t => Char.ofNat (hexDigitVal a * 16 + hexDigitVal b) :: t
    else none
  | '%' :: _ => none
  | c :: rest =>
    if c.toNat < 0x80 && !isHostChar c then none
    else (zoneUnescape rest).map fun t => c :: t

/-- Index of the last occurrence of a character (`strings.LastIndex`). -/
def lastIndexOf (c : Char) (s : Str) : Option Nat :=
  (s.reverse.findIdx? fun x => x = c).map fun j => s.length - 1 - j

/-- Index of the first occurrence of the substring `%25`
(`strings.Index(s, "%25")`). -/
def indexOfZone : Str → Option Nat
  | [] => none
  | '%' :: '2' :: '5' :: _ => some 0
  | _ :: rest => (indexOfZone rest).map (· + 1)

/-- Go `parseHost`: a `[`-leading host must contain a closing `]`
followed by an optional valid port, with an IPv6 zone (`%25...`)
unescaped in zone mode; otherwise an optional `:port` suffix after the
last `:` is validated; finally the whole host is unescaped in host
mode. -/
def parseHost (h : Str) : Option Str :=
  match h with
  | '[' :: _ =>
    match lastIndexOf ']' h with
    | none => none
    | some i =>
      if validOptionalPort (h.drop (i + 1)) then
        match indexOfZone (h.take i) with
        | some z =>
          match hostUnescape ((h.take i).take z),
              zoneUnescape ((h.take i).drop z), hostUnescape (h.drop i) with
          | some h1, some h2, some h3 => some (h1 ++ h2 ++ h3)
          | _, _, _ => none
        | none => hostUnescape h
      else none
  | _ =>
    if h.contains ':' then
      if validOptionalPort
          (':' :: (h.reverse.takeWhile fun c => c ≠ ':').reverse) then
        hostUnescape h
      else none
    else hostUnescape h

/-- Go `validUserinfo`: alphanumerics and the userinfo specials. -/
def validUserinfo (s : Str) : Bool :=
  s.all fun c => c.isAlpha || c.isDigit ||
    ['-', '.', '_', ':', '~', '!', '$', '&', Char.ofNat 39, '(', ')',
      '*', '+', ',', ';', '=', '%', '@'].contains c

/-- Go `parseAuthority`: split userinfo at the last `@` (validated with
`validUserinfo` and escape-checked; a `:` never splits an escape, so
per-part and whole-string escape validity agree), then parse the host. -/
def parseAuthority (authority : Str) : Option Str :=
  match lastIndexOf '@' authority with
  | none => parseHost authority
  | some i =>
    if validUserinfo (authority.take i) && validEscapes (authority.take i) then
      parseHost (authority.drop (i + 1))
    else none

/-- Model of `url.Parse`: cut the fragment at the first `#` (escape-
checked), extract the scheme and the query, then either parse an
authority (`//`-prefixed remainder, except the scheme-less `///` case,
which Go's guard `url.Scheme != "" || ... !HasPrefix(rest, "///")`
routes to the path case) or take the remainder as a path, rejecting a
`:` in the first segment of a scheme-less relative path. Opaque URIs
(scheme followed by a non-`/`, non-empty remainder) are mapped to
`none` (see the section comment: Go gives them an empty host, which
`createURL` rejects identically). -/
def parseURL (s : Str) : Option GoURL :=
  if containsCTL s then none
  else
    let f := goCut '#' s
    if validEscapes f.2 = false then none
    else
      match getScheme f.1 with
      | none => none
      | some (scheme, rest1) =>
        let q := cutQuery rest1
        match q.1 with
        | '/' :: '/' :: hostpath =>
          if scheme = [] ∧ hostpath.head? = some '/' then
            if validEscapes ('/' :: '/' :: hostpath) then
              some ⟨[], [], '/' :: '/' :: hostpath, q.2.1, f.2, q.2.2⟩
            else none
          else
            let auth := hostpath.takeWhile fun c => c ≠ '/'
            let path := hostpath.dropWhile fun c => c ≠ '/'
            match parseAuthority auth with
            | none => none
            | some host =>
              if validEscapes path then
                some ⟨scheme.map Char.toLower, host, path, q.2.1, f.2, q.2.2⟩
              else none
        | rest2 =>
          if scheme ≠ [] ∧ rest2 ≠ [] ∧ rest2.head? ≠ some '/' then none
          else if scheme = [] ∧ (rest2.takeWhile fun c => c ≠ '/').contains ':' then
            none
          else if validEscapes rest2 then
            some ⟨scheme.map Char.toLower, [], rest2, q.2.1, f.2, q.2.2⟩
          else none

/-- Model of `createURL` (RTMP `conn.go`): parse `/app/play` as a
request URI, parse the base `tcurl`, then copy host and scheme after
checking they are non-empty. -/
def createURL (tcurl app play : Str) : Except Str GoURL :=
  match parseRequestURI ('/' :: app ++ '/' :: play) with
  | none => .error "invalid request URI".toList
  | some u =>
    match parseURL tcurl with
    | none => .error "invalid base URL".toList
    | some tu =>
      if tu.host = [] then .error "invalid host".toList
      else
        if tu.scheme = [] then .error "invalid scheme".toList
        else .ok { u with host := tu.host, scheme := tu.scheme }

/-- C5 counterexample: with base URL `rtmp://myhost/app` (whose parsed
host and scheme are both non-empty), application path `%` and stream
path `s`, `createURL` fails — parsing `/%/s` rejects the invalid
percent escape — refuting "fails if and only if the parsed base URL's
host or scheme is empty". -/
theorem c5_counterexample :
    parseURL "rtmp://myhost/app".toList =
      some ⟨"rtmp".toList, "myhost".toList, "/app".toList, [], [], false⟩ ∧
    ("myhost".toList : Str) ≠ [] ∧ ("rtmp".toList : Str) ≠ [] ∧
    createURL "rtmp://myhost/app".toList "%".toList "s".toList =
      .error "invalid request URI".toList := by
  refine ⟨by decide, by decide, by decide, rfl⟩


theorem validEscapes_cons (c : Char) (rest : Str) :
    validEscapes (c :: rest) =
      if c = '%' then
        match rest with
        | a :: b :: rest2 => isHexChar a && isHexChar b && validEscapes rest2
        | _ => false
      else validEscapes rest := by
  cases rest with
  | nil => rfl
  | cons a r2 =>
    cases r2 with
    | nil => rfl
    | cons b r3 => rfl

theorem validEscapes_no_pct : ∀ s : Str, '%' ∉ s → validEscapes s = true
  | [], _ => rfl
  | c :: rest, h => by
    have hc : c ≠ '%' := fun he => h (he ▸ List.mem_cons_self c rest)
    rw [validEscapes_cons, if_neg hc]
    exact validEscapes_no_pct rest fun hm => h (List.mem_cons_of_mem c hm)

theorem cutQuery_no_query (s : Str) (h : '?' ∉ s) : cutQuery s = (s, [], false) := by
  have hcount : s.count '?' = 0 := List.count_eq_zero.mpr h
  have hcond : ¬ (s.getLast? = some '?' ∧ s.count '?' = 1) := by
    intro hc
    rw [hcount] at hc
    exact absurd hc.2 (by decide)
  have ht : s.takeWhile (fun c => decide (c ≠ '?')) = s :=
    List.takeWhile_eq_self_iff.mpr fun x hx => by
      have hne : x ≠ '?' := fun he => h (he ▸ hx)
      simp [hne]
  have hd : s.dropWhile (fun c => decide (c ≠ '?')) = [] :=
    List.dropWhile_eq_nil_iff.mpr fun x hx => by
      have hne : x ≠ '?' := fun he => h (he ▸ hx)
      simp [hne]
  unfold cutQuery goCut
  rw [if_neg hcond, ht, hd]
  rfl

/-- C5 (amended): `createURL` fails if and only if `/app/stream` fails
to parse as a request URI, the base URL fails to parse, or the parsed
base URL's host or scheme is empty; on success the host and scheme are
copied from the base onto the parsed path URL; and whenever both path
components are free of control bytes, `%` and `?`, the parsed path URL
is exactly the path-only URL `/application/stream`. -/
theorem c5_createURL_characterization (tcurl app play : Str) :
    ((∃ m, createURL tcurl app play = .error m) ↔
      parseRequestURI ('/' :: app ++ '/' :: play) = none ∨
      parseURL tcurl = none ∨
      ∃ tu, parseURL tcurl = some tu ∧ (tu.host = [] ∨ tu.scheme = [])) ∧
    (∀ u tu, parseRequestURI ('/' :: app ++ '/' :: play) = some u →
      parseURL tcurl = some tu → tu.host ≠ [] → tu.scheme ≠ [] →
      createURL tcurl app play = .ok { u with host := tu.host, scheme := tu.scheme }) ∧
    ((∀ c ∈ '/' :: app ++ '/' :: play,
        (c.toNat < 0x20 ∨ c.toNat = 0x7f ∨ c = '%' ∨ c = '?') → False) →
      parseRequestURI ('/' :: app ++ '/' :: play) =
        some ⟨[], [], '/' :: app ++ '/' :: play, [], [], false⟩) := by
  refine ⟨⟨?_, ?_⟩, ?_, ?_⟩
  · rintro ⟨m, hm⟩
    cases hpr : parseRequestURI ('/' :: app ++ '/' :: play) with
    | none => exact Or.inl rfl
    | some u =>
      cases hpu : parseURL tcurl with
      | none => exact Or.inr (Or.inl rfl)
      | some tu =>
        by_cases hh : tu.host = []
        · exact Or.inr (Or.inr ⟨tu, rfl, Or.inl hh⟩)
        · by_cases hs : tu.scheme = []
          · exact Or.inr (Or.inr ⟨tu, rfl, Or.inr hs⟩)
          · exfalso
            have hok : createURL tcurl app play =
                .ok { u with host := tu.host, scheme := tu.scheme } := by
              simp only [createURL, hpr, hpu, if_neg hh, if_neg hs]
            rw [hok] at hm
            exact absurd hm (by simp)
  · intro h
    rcases h with h | h | ⟨tu, htu, hcase⟩
    · exact ⟨"invalid request URI".toList, by simp only [createURL, h]⟩
    · cases hpr : parseRequestURI ('/' :: app ++ '/' :: play) with
      | none => exact ⟨"invalid request URI".toList, by simp only [createURL, hpr]⟩
      | some u => exact ⟨"invalid base URL".toList, by simp only [createURL, hpr, h]⟩
    · cases hpr : parseRequestURI ('/' :: app ++ '/' :: play) with
      | none => exact ⟨"invalid request URI".toList, by simp only [createURL, hpr]⟩
      | some u =>
        rcases hcase with hh | hs
        · exact ⟨"invalid host".toList, by simp only [createURL, hpr, htu, if_pos hh]⟩
        · by_cases hh : tu.host = []
          · exact ⟨"invalid host".toList, by simp only [createURL, hpr, htu, if_pos hh]⟩
          · exact ⟨"invalid scheme".toList,
              by simp only [createURL, hpr, htu, if_neg hh, if_pos hs]⟩
  · intro u tu hu htu hh hs
    simp only [createURL, hu, htu, if_neg hh, if_neg hs]
  · intro hchars
    have hctl : containsCTL ('/' :: app ++ '/' :: play) = false := by
      rw [containsCTL, List.any_eq_false]
      intro c hc
      have h1 : ¬ c.toNat < 0x20 := fun hlt => hchars c hc (Or.inl hlt)
      have h2 : ¬ c.toNat = 0x7f := fun he => hchars c hc (Or.inr (Or.inl he))
      simp [h1, h2]
    have hpct : '%' ∉ ('/' :: app ++ '/' :: play) :=
      fun hm => hchars '%' hm (Or.inr (Or.inr (Or.inl rfl)))
    have hq : '?' ∉ ('/' :: app ++ '/' :: play) :=
      fun hm => hchars '?' hm (Or.inr (Or.inr (Or.inr rfl)))
    unfold parseRequestURI
    rw [hctl]
    simp only [Bool.false_eq_true, if_false]
    split
    · rw [cutQuery_no_query _ (by simpa using hq)]
      rw [validEscapes_no_pct _ (by simpa using hpct)]
      simp
    · rename_i hnf
      exact ((hnf (app ++ '/' :: play) rfl)).elim

/-- C5 witness: plain segments against base `rtmp://myhost/app`. -/
theorem c5_createURL_characterization_witness :
    createURL "rtmp://myhost/app".toList "myapp".toList "st".toList =
      .ok ⟨"rtmp".toList, "myhost".toList, "/myapp/st".toList, [], [], false⟩ := by
  have h := c5_createURL_characterization "rtmp://myhost/app".toList
    "myapp".toList "st".toList
  have hpr := h.2.2 (by decide)
  exact h.2.1 _ ⟨"rtmp".toList, "myhost".toList, "/app".toList, [], [], false⟩
    hpr (by decide) (by decide) (by decide)

/-! ## RTMP server-side command loop (`Conn.InitializeServer`) -/

/-- AMF0 values as used by the command surface. -/
inductive AMFValue where
  | null
  | num (n : Int)
  | str (s : Str)
  | amap (entries : List (Str × AMFValue))
  | flag (b : Bool)

/-- A command message (`message.MsgCommandAMF0`) as read by the server
loop; `readCommand` discards every non-command message, so the input
stream is modelled as commands only. -/
structure Cmd where
  name : Str
  commandID : Nat
  chunkStreamID : Nat
  args : List AMFValue

/-- Messages the server loop writes. -/
inductive OutMsg where
  | userControlStreamIsRecorded (streamID : Nat)
  | userControlStreamBegin (streamID : Nat)
  | commandAMF0 (chunkStreamID msgStreamID commandID : Nat)
      (name : Str) (args : List AMFValue)

/-- The argument list of an `onStatus` notification:
`[nil, {level: "status", code, description}]`. -/
def onStatusArgs (code desc : Str) : List AMFValue :=
  [.null, .amap [("level".toList, .str "status".toList),
    ("code".toList, .str code), ("description".toList, .str desc)]]

/-- Model of the command loop of `Conn.InitializeServer` (RTMP
`conn.go`): after the `connect` exchange, read commands until `play` or
`publish`; `tcurl` and `connectpath` were taken from the `connect`
command. Returns the messages written (appended to `acc`) and either
the resolved URL with the publishing flag, or an error; an exhausted
command list models a transport read failure. -/
def serverLoop (tcurl connectpath : Str) (cmds : List Cmd) (acc : List OutMsg) :
    List OutMsg × Except Str (GoURL × Bool) :=
  match cmds with
  | [] => (acc, .error "read error".toList)
  | cmd :: rest =>
    if cmd.name = "createStream".toList then
      serverLoop tcurl connectpath rest
        (acc ++ [.commandAMF0 cmd.chunkStreamID 0 cmd.commandID
          "_result".toList [.null, .num 1]])
    else if cmd.name = "play".toList then
      match cmd.args with
      | _ :: .str actionpath :: _ =>
        match createURL tcurl connectpath actionpath with
        | .error e => (acc, .error e)
        | .ok u =>
          (acc ++ [.userControlStreamIsRecorded 1, .userControlStreamBegin 1,
            .commandAMF0 5 0x1000000 cmd.commandID "onStatus".toList
              (onStatusArgs "NetStream.Play.Reset".toList "play reset".toList),
            .commandAMF0 5 0x1000000 cmd.commandID "onStatus".toList
              (onStatusArgs "NetStream.Play.Start".toList "play start".toList),
            .commandAMF0 5 0x1000000 cmd.commandID "onStatus".toList
              (onStatusArgs "NetStream.Data.Start".toList "data start".toList),
            .commandAMF0 5 0x1000000 cmd.commandID "onStatus".toList
              (onStatusArgs "NetStream.Play.PublishNotify".toList
                "publish notify".toList)],
           .ok (u, false))
      | _ => (acc, .error "invalid play command arguments".toList)
    else if cmd.name = "publish".toList then
      match cmd.args with
      | _ :: .str actionpath :: _ =>
        match createURL tcurl connectpath actionpath with
        | .error e => (acc, .error e)
        | .ok u =>
          (acc ++ [.commandAMF0 5 0x1000000 cmd.commandID "onStatus".toList
            (onStatusArgs "NetStream.Publish.Start".toList
              "publish start".toList)],
           .ok (u, true))
      | _ => (acc, .error "invalid publish command arguments".toList)
    else
      serverLoop tcurl connectpath rest acc

/-- C8: on a `play` command whose second argument is a stream-path
string (and whose session target resolves), the server emits exactly
the sequence stream-is-recorded, stream-begin, then `onStatus`
NetStream.Play.Reset / NetStream.Play.Start / NetStream.Data.Start /
NetStream.Play.PublishNotify with those exact codes and descriptions,
in that order, and returns the resolved target with the non-publishing
role. -/
theorem c8_play_notification_sequence (tcurl connectpath actionpath : Str)
    (cmd : Cmd) (rest : List Cmd) (acc : List OutMsg)
    (a0 : AMFValue) (argsRest : List AMFValue) (u : GoURL)
    (hname : cmd.name = "play".toList)
    (hargs : cmd.args = a0 :: .str actionpath :: argsRest)
    (hurl : createURL tcurl connectpath actionpath = .ok u) :
    serverLoop tcurl connectpath (cmd :: rest) acc =
      (acc ++ [.userControlStreamIsRecorded 1, .userControlStreamBegin 1,
        .commandAMF0 5 0x1000000 cmd.commandID "onStatus".toList
          (onStatusArgs "NetStream.Play.Reset".toList "play reset".toList),
        .commandAMF0 5 0x1000000 cmd.commandID "onStatus".toList
          (onStatusArgs "NetStream.Play.Start".toList "play start".toList),
        .commandAMF0 5 0x1000000 cmd.commandID "onStatus".toList
          (onStatusArgs "NetStream.Data.Start".toList "data start".toList),
        .commandAMF0 5 0x1000000 cmd.commandID "onStatus".toList
          (onStatusArgs "NetStream.Play.PublishNotify".toList
            "publish notify".toList)],
       .ok (u, false)) := by
  rw [serverLoop, hname, hargs]
  rw [if_neg (by decide), if_pos rfl]
  simp only [hurl]

/-- C8 witness: a concrete `play` command against base
`rtmp://myhost/app`. -/
theorem c8_play_notification_sequence_witness :
    serverLoop "rtmp://myhost/app".toList "myapp".toList
      [⟨"play".toList, 4, 3, [.null, .str "st".toList]⟩] [] =
      ([.userControlStreamIsRecorded 1, .userControlStreamBegin 1,
        .commandAMF0 5 0x1000000 4 "onStatus".toList
          (onStatusArgs "NetStream.Play.Reset".toList "play reset".toList),
        .commandAMF0 5 0x1000000 4 "onStatus".toList
          (onStatusArgs "NetStream.Play.Start".toList "play start".toList),
        .commandAMF0 5 0x1000000 4 "onStatus".toList
          (onStatusArgs "NetStream.Data.Start".toList "data start".toList),
        .commandAMF0 5 0x1000000 4 "onStatus".toList
          (onStatusArgs "NetStream.Play.PublishNotify".toList
            "publish notify".toList)],
       .ok (⟨"rtmp".toList, "myhost".toList, "/myapp/st".toList, [], [], false⟩,
         false)) := by
  have h := c8_play_notification_sequence "rtmp://myhost/app".toList
    "myapp".toList "st".toList ⟨"play".toList, 4, 3, [.null, .str "st".toList]⟩
    [] [] .null []
    ⟨"rtmp".toList, "myhost".toList, "/myapp/st".toList, [], [], false⟩
    rfl rfl (by rfl)
  simpa using h

/-! ## Track discovery (`readTracksFromMessages`, `readTracksFromMetadata`)

Messages carry a DTS (nanoseconds), the FLV packet-type field and the
payload; `trackFromH264DecoderConfig` / `trackFromAACDecoderConfig`
(and later `h264.AVCCUnmarshal`) are external parsers passed in as
functions. `flvio.AVC_SEQHDR = 0`. -/

inductive RtmpMsg where
  | video (dts : Int) (h264Type : Nat) (isKeyFrame : Bool) (payload : List Nat)
  | audio (dts : Int) (aacType : Nat) (payload : List Nat)
  | other
  deriving Repr, DecidableEq

/-- An H264 video track built from a decoder config (payload type 96
and packetization mode 1 are fixed by `trackFromH264DecoderConfig`). -/
structure H264Track where
  sps : List Nat
  pps : List Nat
  deriving Repr, DecidableEq

/-- An AAC audio track built from a decoder config. -/
structure AACTrack where
  config : List Nat
  deriving Repr, DecidableEq

abbrev VParseFn := List Nat → Except Str H264Track
abbrev AParseFn := List Nat → Except Str AACTrack

def oneSecond : Int := 1000000000

inductive RTFMErr where
  | readError
  | configError (m : Str)
  | noTracksFound
  deriving Repr, DecidableEq

inductive RTFMResult where
  | found (v : Option H264Track) (a : Option AACTrack)
  | err (e : RTFMErr)
  deriving Repr, DecidableEq

/-- The post-loop check of `readTracksFromMessages` (lines 1042-1046):
"no tracks found" when the one-second scan captured neither track. -/
def finishScan (v : Option H264Track) (a : Option AACTrack) : RTFMResult :=
  if v = none ∧ a = none then .err .noTracksFound else .found v a

/-- Model of `Conn.readTracksFromMessages` (`conn.go` slice lines
975-1047): heuristic discovery over the first message and the messages
read after it; an exhausted list models a transport read failure. -/
def readTracksFromMessages (vparse : VParseFn) (aparse : AParseFn)
    (startTime : Option Int) (videoTrack : Option H264Track)
    (audioTrack : Option AACTrack) : List RtmpMsg → RTFMResult
  | [] => .err .readError
  | .video dts typ _ payload :: rest =>
    let start := startTime.getD dts
    if typ = 0 ∧ videoTrack = none then
      match vparse payload with
      | .error e => .err (.configError e)
      | .ok vt =>
        if audioTrack.isSome then .found (some vt) audioTrack
        else if oneSecond ≤ dts - start then finishScan (some vt) audioTrack
        else readTracksFromMessages vparse aparse (some start) (some vt)
          audioTrack rest
    else if oneSecond ≤ dts - start then finishScan videoTrack audioTrack
    else readTracksFromMessages vparse aparse (some start) videoTrack
      audioTrack rest
  | .audio dts typ payload :: rest =>
    let start := startTime.getD dts
    if typ = 0 ∧ audioTrack = none then
      match aparse payload with
      | .error e => .err (.configError e)
      | .ok at1 =>
        if videoTrack.isSome then .found videoTrack (some at1)
        else if oneSecond ≤ dts - start then finishScan videoTrack (some at1)
        else readTracksFromMessages vparse aparse (some start) videoTrack
          (some at1) rest
    else if oneSecond ≤ dts - start then finishScan videoTrack audioTrack
    else readTracksFromMessages vparse aparse (some start) videoTrack
      audioTrack rest
  | .other :: rest =>
    readTracksFromMessages vparse aparse startTime videoTrack audioTrack rest

/-- Spec-side helper: the DTS values of every audio-or-video message, in
order. -/
def avDTSList (msgs : List RtmpMsg) : List Int :=
  msgs.filterMap fun m =>
    match m with
    | .video dts _ _ _ => some dts
    | .audio dts _ _ => some dts
    | .other => none

/-- Spec-side helper: the DTS values of the video messages only. -/
def videoDTSList (msgs : List RtmpMsg) : List Int :=
  msgs.filterMap fun m =>
    match m with
    | .video dts _ _ _ => some dts
    | _ => none

/-- Spec-side helper: the DTS values of the audio messages only. -/
def audioDTSList (msgs : List RtmpMsg) : List Int :=
  msgs.filterMap fun m =>
    match m with
    | .audio dts _ _ => some dts
    | _ => none

/-- Spec-side helper: whether a one-second window has elapsed relative
to the first timestamp of the list. -/
def typeWindowElapsed (ds : List Int) : Bool :=
  ds.any fun d => oneSecond ≤ d - ds.headD 0

/-- The one-second window over the shared (audio-or-video) timestamp
stream, as the code actually tracks it. -/
def sharedWindowElapsed (msgs : List RtmpMsg) : Bool :=
  typeWindowElapsed (avDTSList msgs)

/-- A video-config parser stub for inputs that never reach it. -/
def vparseNever : VParseFn := fun _ => .error "no video config".toList

/-- An audio-config parser stub for inputs that never reach it. -/
def aparseNever : AParseFn := fun _ => .error "no audio config".toList

/-- C3 counterexample: one video message at DTS 0 and one audio message
at DTS 1s. `startTime` is a single variable shared by both media types,
so the audio message trips the one-second check and discovery fails
with "no tracks found" — even though, measured per media type against
each type's own first timestamp (as the claim states), neither type's
window has elapsed (both spreads are 0). -/
theorem c3_counterexample :
    readTracksFromMessages vparseNever aparseNever none none none
      [.video 0 1 false [], .audio oneSecond 1 []] = .err .noTracksFound ∧
    typeWindowElapsed (videoDTSList [.video 0 1 false [], .audio oneSecond 1 []]) =
      false ∧
    typeWindowElapsed (audioDTSList [.video 0 1 false [], .audio oneSecond 1 []]) =
      false := by
  refine ⟨by decide, by decide, by decide⟩

theorem rtfm_window_aux (vparse : VParseFn) (aparse : AParseFn) :
    ∀ (msgs : List RtmpMsg) (st : Option Int) (vt : Option H264Track)
      (a : Option AACTrack),
      readTracksFromMessages vparse aparse st vt a msgs = .err .noTracksFound →
      (avDTSList msgs).any
        (fun d => oneSecond ≤ d - st.getD ((avDTSList msgs).headD 0)) = true := by
  intro msgs
  induction msgs with
  | nil =>
    intro st vt a h
    simp [readTracksFromMessages] at h
  | cons m rest ih =>
    intro st vt a h
    cases m with
    | other =>
      simp only [readTracksFromMessages] at h
      have hrec := ih st vt a h
      simpa [avDTSList] using hrec
    | video dts typ kf payload =>
      have hlist : avDTSList (.video dts typ kf payload :: rest) =
          dts :: avDTSList rest := by
        simp [avDTSList]
      rw [hlist]
      simp only [List.headD_cons]
      by_cases hw : oneSecond ≤ dts - st.getD dts
      · simp [List.any_cons, hw]
      · simp only [readTracksFromMessages] at h
        by_cases hc : typ = 0 ∧ vt = none
        · rw [if_pos hc] at h
          cases hv : vparse payload with
          | error e => simp [hv] at h
          | ok vt1 =>
            simp only [hv] at h
            by_cases ha : a.isSome
            · rw [if_pos ha] at h
              exact absurd h (by simp)
            · rw [if_neg ha, if_neg hw] at h
              have hrec := ih (some (st.getD dts)) (some vt1) a h
              simp only [Option.getD_some] at hrec
              simp [List.any_cons, hrec]
        · rw [if_neg hc, if_neg hw] at h
          have hrec := ih (some (st.getD dts)) vt a h
          simp only [Option.getD_some] at hrec
          simp [List.any_cons, hrec]
    | audio dts typ payload =>
      have hlist : avDTSList (.audio dts typ payload :: rest) =
          dts :: avDTSList rest := by
        simp [avDTSList]
      rw [hlist]
      simp only [List.headD_cons]
      by_cases hw : oneSecond ≤ dts - st.getD dts
      · simp [List.any_cons, hw]
      · simp only [readTracksFromMessages] at h
        by_cases hc : typ = 0 ∧ a = none
        · rw [if_pos hc] at h
          cases hv : aparse payload with
          | error e => simp [hv] at h
          | ok at1 =>
            simp only [hv] at h
            by_cases hv2 : vt.isSome
            · rw [if_pos hv2] at h
              exact absurd h (by simp)
            · rw [if_neg hv2, if_neg hw] at h
              have hrec := ih (some (st.getD dts)) vt (some at1) h
              simp only [Option.getD_some] at hrec
              simp [List.any_cons, hrec]
        · rw [if_neg hc, if_neg hw] at h
          have hrec := ih (some (st.getD dts)) vt a h
          simp only [Option.getD_some] at hrec
          simp [List.any_cons, hrec]

/-- C3 (amended): heuristic discovery scans for up to one second of
relative timestamp progress measured against a single shared start —
the first audio-or-video message's timestamp, whichever type arrives
first — not per media type; it stops the instant both tracks have been
captured; and it returns "no tracks found" only if some audio-or-video
message's timestamp is at least one second past that shared start,
never before. -/
theorem c3_heuristic_shared_window (vparse : VParseFn) (aparse : AParseFn) :
    (∀ msgs, readTracksFromMessages vparse aparse none none none msgs =
        .err .noTracksFound →
      sharedWindowElapsed msgs = true) ∧
    (∀ st a dts kf payload vt rest, vparse payload = .ok vt →
      readTracksFromMessages vparse aparse st none (some a)
        (.video dts 0 kf payload :: rest) = .found (some vt) (some a)) ∧
    (∀ st v dts payload at1 rest, aparse payload = .ok at1 →
      readTracksFromMessages vparse aparse st (some v) none
        (.audio dts 0 payload :: rest) = .found (some v) (some at1)) := by
  refine ⟨?_, ?_, ?_⟩
  · intro msgs h
    have hrec := rtfm_window_aux vparse aparse msgs none none none h
    simpa [sharedWindowElapsed, typeWindowElapsed] using hrec
  · intro st a dts kf payload vt rest hpv
    simp [readTracksFromMessages, hpv]
  · intro st v dts payload at1 rest hpa
    simp [readTracksFromMessages, hpa]

/-- C3 witness: audio-only traffic spanning exactly one second with no
decoder config; discovery fails with "no tracks found" and the shared
window has indeed elapsed. -/
theorem c3_heuristic_shared_window_witness :
    readTracksFromMessages vparseNever aparseNever none none none
      [.audio 0 1 [], .audio oneSecond 1 []] = .err .noTracksFound ∧
    sharedWindowElapsed [.audio 0 1 [], .audio oneSecond 1 []] = true :=
  ⟨by decide,
    (c3_heuristic_shared_window vparseNever aparseNever).1 _ (by decide)⟩

/-! ## Metadata-driven discovery (`Conn.readTracksFromMetadata`) -/

inductive VideoTrack where
  | h264 (t : H264Track)
  | h265 (vps sps pps : List Nat)
  deriving Repr, DecidableEq

/-- External `h264.AVCCUnmarshal`. -/
abbrev AVCCFn := List Nat → Except Str (List (List Nat))

inductive MDErr where
  | readError
  | unexpectedVideo
  | unexpectedAudio
  | configError (m : Str)
  | invalidMetadata
  | unsupportedVideoCodec
  | unsupportedAudioCodec
  | emptyMetadata
  deriving Repr, DecidableEq

/-- Result of metadata-driven discovery; `remaining` models the unread
tail of the message stream. -/
inductive MDResult where
  | found (v : Option VideoTrack) (a : Option AACTrack)
      (remaining : List RtmpMsg)
  | err (e : MDErr)
  deriving Repr, DecidableEq

/-- The key-frame VPS/SPS/PPS sniffing loop (`conn.go` slice lines
927-940): classify each access unit by its first byte, keeping the last
of each kind. -/
def sniffH265Params (nalus : List (List Nat)) :
    Option (List Nat) × Option (List Nat) × Option (List Nat) :=
  nalus.foldl
    (fun acc nalu =>
      let typ := naluTypeOfByte (nalu.headD 0)
      if typ = NALUType_VPS_NUT then (some nalu, acc.2.1, acc.2.2)
      else if typ = NALUType_SPS_NUT then (acc.1, some nalu, acc.2.2)
      else if typ = NALUType_PPS_NUT then (acc.1, acc.2.1, some nalu)
      else acc)
    (none, none, none)

/-- The video-track update of one loop iteration (lines 911-951). -/
def rtmdVideoStep (vconf : VParseFn) (avcc : AVCCFn)
    (videoTrack : Option VideoTrack) (typ : Nat) (kf : Bool)
    (payload : List Nat) : Except MDErr (Option VideoTrack) :=
  match videoTrack with
  | some _ => .ok videoTrack
  | none =>
    if typ = 0 then
      match vconf payload with
      | .error e => .error (.configError e)
      | .ok t => .ok (some (.h264 t))
    else if typ = 1 ∧ kf then
      match avcc payload with
      | .error e => .error (.configError e)
      | .ok nalus =>
        match sniffH265Params nalus with
        | (some vps, some sps, some pps) => .ok (some (.h265 vps sps pps))
        | _ => .ok none
    else .ok none

/-- The audio-track update of one loop iteration (lines 958-965). -/
def rtmdAudioStep (aconf : AParseFn) (audioTrack : Option AACTrack)
    (typ : Nat) (payload : List Nat) : Except MDErr (Option AACTrack) :=
  match audioTrack with
  | some _ => .ok audioTrack
  | none =>
    if typ = 0 then
      match aconf payload with
      | .error e => .error (.configError e)
      | .ok t => .ok (some t)
    else .ok none

/-- The completion check (lines 968-971): every expected track type has
been resolved. -/
def rtmdDone (hasVideo hasAudio : Bool) (v : Option VideoTrack)
    (a : Option AACTrack) : Bool :=
  (!hasVideo || v.isSome) && (!hasAudio || a.isSome)

/-- Model of the message loop of `Conn.readTracksFromMetadata` (lines
899-972). -/
def rtmdLoop (vconf : VParseFn) (avcc : AVCCFn) (aconf : AParseFn)
    (hasVideo hasAudio : Bool) (vt : Option VideoTrack)
    (a : Option AACTrack) : List RtmpMsg → MDResult
  | [] => .err .readError
  | .video _ typ kf payload :: rest =>
    if !hasVideo then .err .unexpectedVideo
    else
      match rtmdVideoStep vconf avcc vt typ kf payload with
      | .error e => .err e
      | .ok vt1 =>
        if rtmdDone hasVideo hasAudio vt1 a then .found vt1 a rest
        else rtmdLoop vconf avcc aconf hasVideo hasAudio vt1 a rest
  | .audio _ typ payload :: rest =>
    if !hasAudio then .err .unexpectedAudio
    else
      match rtmdAudioStep aconf a typ payload with
      | .error e => .err e
      | .ok a1 =>
        if rtmdDone hasVideo hasAudio vt a1 then .found vt a1 rest
        else rtmdLoop vconf avcc aconf hasVideo hasAudio vt a1 rest
  | .other :: rest =>
    if rtmdDone hasVideo hasAudio vt a then .found vt a rest
    else rtmdLoop vconf avcc aconf hasVideo hasAudio vt a rest

/-- flvio `GetV`: first map entry with the given key. -/
def amfGetV (md : List (Str × AMFValue)) (key : Str) : Option AMFValue :=
  (md.find? fun kv => kv.1 == key).map fun kv => kv.2

/-- Whether the metadata declares a video track (lines 836-859):
`videocodecid` absent means no video; numeric 0 means no video; numeric
7 or string "avc1" means H264; anything else is unsupported. -/
def metadataHasVideo (md : List (Str × AMFValue)) : Except MDErr Bool :=
  match amfGetV md "videocodecid".toList with
  | none => .ok false
  | some v =>
    match v with
    | .num n =>
      if n = 0 then .ok false
      else if n = 7 then .ok true
      else .error .unsupportedVideoCodec
    | .str s =>
      if s = "avc1".toList then .ok true else .error .unsupportedVideoCodec
    | _ => .error .unsupportedVideoCodec

/-- Whether the metadata declares an audio track (lines 864-887):
`audiocodecid` absent or numeric 0 means none; numeric 10 or string
"mp4a" means AAC; anything else is unsupported. -/
def metadataHasAudio (md : List (Str × AMFValue)) : Except MDErr Bool :=
  match amfGetV md "audiocodecid".toList with
  | none => .ok false
  | some v =>
    match v with
    | .num n =>
      if n = 0 then .ok false
      else if n = 10 then .ok true
      else .error .unsupportedAudioCodec
    | .str s =>
      if s = "mp4a".toList then .ok true else .error .unsupportedAudioCodec
    | _ => .error .unsupportedAudioCodec

/-- Model of `Conn.readTracksFromMetadata` (lines 826-973): a
single-element map payload declares the expected track types; declaring
neither is the distinguished empty-metadata signal; otherwise loop over
the subsequent messages. -/
def readTracksFromMetadata (vconf : VParseFn) (avcc : AVCCFn)
    (aconf : AParseFn) (payload : List AMFValue) (msgs : List RtmpMsg) :
    MDResult :=
  match payload with
  | [.amap md] =>
    match metadataHasVideo md with
    | .error e => .err e
    | .ok hv =>
      match metadataHasAudio md with
      | .error e => .err e
      | .ok ha =>
        if !hv && !ha then .err .emptyMetadata
        else rtmdLoop vconf avcc aconf hv ha none none msgs
  | [_] => .err .invalidMetadata
  | _ => .err .invalidMetadata

def isVideoMsg (m : RtmpMsg) : Bool :=
  match m with
  | .video _ _ _ _ => true
  | _ => false

/-- An AVCC-unmarshal stub for inputs that never reach it. -/
def avccNever : AVCCFn := fun _ => .error "no avcc".toList

/-- C10: during metadata-driven discovery, a video message read while
the metadata declared no video track terminates discovery with the
"unexpected video packet" error, and symmetrically for audio; moreover
no video message is ever silently skipped: whenever the loop completes
with tracks while video is undeclared, none of the consumed messages
was a video message. The link from the declaration to the flag is
`readTracksFromMetadata`: a metadata map declaring no video and some
audio enters the loop with `hasVideo = false`. -/
theorem c10_unexpected_media_error (vconf : VParseFn) (avcc : AVCCFn)
    (aconf : AParseFn) :
    (∀ hasAudio vt a dts typ kf payload rest,
      rtmdLoop vconf avcc aconf false hasAudio vt a
        (.video dts typ kf payload :: rest) = .err .unexpectedVideo) ∧
    (∀ hasVideo vt a dts typ payload rest,
      rtmdLoop vconf avcc aconf hasVideo false vt a
        (.audio dts typ payload :: rest) = .err .unexpectedAudio) ∧
    (∀ md dts typ kf payload rest,
      metadataHasVideo md = .ok false → metadataHasAudio md = .ok true →
      readTracksFromMetadata vconf avcc aconf [.amap md]
        (.video dts typ kf payload :: rest) = .err .unexpectedVideo) ∧
    (∀ hasAudio vt a msgs v1 a1 rem,
      rtmdLoop vconf avcc aconf false hasAudio vt a msgs = .found v1 a1 rem →
      ∃ pre, msgs = pre ++ rem ∧ pre.all (fun m => !isVideoMsg m) = true) := by
  have hvid : ∀ hasAudio vt a dts typ kf payload rest,
      rtmdLoop vconf avcc aconf false hasAudio vt a
        (.video dts typ kf payload :: rest) = .err .unexpectedVideo := by
    intro hasAudio vt a dts typ kf payload rest
    simp [rtmdLoop]
  refine ⟨hvid, ?_, ?_, ?_⟩
  · intro hasVideo vt a dts typ payload rest
    simp [rtmdLoop]
  · intro md dts typ kf payload rest hv ha
    simp only [readTracksFromMetadata, hv, ha]
    rw [if_neg (by simp)]
    exact hvid true none none dts typ kf payload rest
  · intro hasAudio vt a msgs
    induction msgs generalizing vt a with
    | nil =>
      intro v1 a1 rem h
      simp [rtmdLoop] at h
    | cons m rest ih =>
      intro v1 a1 rem h
      cases m with
      | video dts typ kf payload =>
        rw [hvid hasAudio vt a dts typ kf payload rest] at h
        exact absurd h (by simp)
      | audio dts typ payload =>
        simp only [rtmdLoop] at h
        by_cases hA : hasAudio
        · rw [if_neg (by simp [hA])] at h
          cases hs : rtmdAudioStep aconf a typ payload with
          | error e =>
            simp only [hs] at h
            exact absurd h (by simp)
          | ok a2 =>
            simp only [hs] at h
            by_cases hdone : rtmdDone false hasAudio vt a2 = true
            · rw [if_pos hdone] at h
              rw [MDResult.found.injEq] at h
              exact ⟨[.audio dts typ payload], by rw [h.2.2]; rfl,
                by simp [isVideoMsg]⟩
            · rw [if_neg hdone] at h
              obtain ⟨pre, hpre, hall⟩ := ih vt a2 v1 a1 rem h
              refine ⟨.audio dts typ payload :: pre, by simp [hpre], ?_⟩
              simp only [List.all_cons, isVideoMsg, Bool.not_false, Bool.true_and]
              exact hall
        · rw [if_pos (by simp [hA])] at h
          exact absurd h (by simp)
      | other =>
        simp only [rtmdLoop] at h
        by_cases hdone : rtmdDone false hasAudio vt a = true
        · rw [if_pos hdone] at h
          rw [MDResult.found.injEq] at h
          exact ⟨[.other], by rw [h.2.2]; rfl, by simp [isVideoMsg]⟩
        · rw [if_neg hdone] at h
          obtain ⟨pre, hpre, hall⟩ := ih vt a v1 a1 rem h
          refine ⟨.other :: pre, by simp [hpre], ?_⟩
          simp only [List.all_cons, isVideoMsg, Bool.not_false, Bool.true_and]
          exact hall

/-- C10 witness: a concrete video message with video undeclared, and a
concrete completed scan that consumed no video message. -/
theorem c10_unexpected_media_error_witness :
    rtmdLoop vparseNever avccNever aparseNever false true none none
      [.video 0 1 false []] = .err .unexpectedVideo ∧
    ∃ pre, ([.other] : List RtmpMsg) = pre ++ [] ∧
      pre.all (fun m => !isVideoMsg m) = true :=
  ⟨(c10_unexpected_media_error vparseNever avccNever aparseNever).1
      true none none 0 1 false [] [],
    (c10_unexpected_media_error vparseNever avccNever aparseNever).2.2.2
      false none none [.other] none none [] (by decide)⟩
